import Mathlib

/-!
Shallow embedding of the azure-servicebus-proxy-functionapp HTTP handlers
(src/HttpTriggerProxyTS/index.ts, queueMessages.ts, receiveMessages.ts,
util.ts, types/request.ts, types/response.ts).

Modelling conventions:
- JavaScript values thrown by broker operations are modelled by the string
  that `String(e)` renders them to; the single throw in the repository
  itself, `throw new Error("Message too big to fit in a batch")`, renders
  to "Error: Message too big to fit in a batch".
- Each awaited broker-client operation may reject; a `SendBroker` /
  `ReceiveBroker` record gives the outcome of each operation (indexed by
  call count where several calls of the same kind can occur) and the
  capacity `maxSizeInBytes` reported for each created batch.
- `ServiceBusMessageBatch.tryAddMessage` accepts a message exactly when the
  encoded size of the batch plus the message stays within the capacity the
  broker reported when the batch was created (`maxSizeInBytes`).
- `receiveMessages(n, opts)` returns at most `n` messages: modelled as the
  first `n` messages of the list the broker has available. The JavaScript
  `Number` coercion is modelled on the fragment the repository can hit
  from query strings: decimal natural literals coerce to numbers, every
  other non-empty string is modelled as NaN; the broker client is modelled
  as rejecting a NaN maxMessageCount.
- A request body / query is modelled as a JSON object with optional
  fields, matching what the validators destructure.
-/

namespace SBProxy

/-- An outbound service-bus message: opaque payload plus the encoded size
the broker batch accounts against its capacity. -/
structure SBMessage where
  body : String
  size : Nat
deriving DecidableEq, Repr

/-- A broker message batch: the capacity reported at creation time and the
messages accepted so far, in order. -/
structure MessageBatch where
  maxSizeInBytes : Nat
  messages : List SBMessage
deriving DecidableEq, Repr

def MessageBatch.sizeInBytes (b : MessageBatch) : Nat :=
  (b.messages.map SBMessage.size).sum

/-- `ServiceBusMessageBatch.tryAddMessage`: accepts the message when it
fits, returning the grown batch; returns none (false) otherwise. -/
def tryAddMessage (b : MessageBatch) (m : SBMessage) : Option MessageBatch :=
  if b.sizeInBytes + m.size ≤ b.maxSizeInBytes then
    some { b with messages := b.messages ++ [m] }
  else
    none

/-- `createMessageBatch` result: a fresh empty batch whose capacity is
whatever the broker reports for the k-th created batch. -/
def freshBatch (caps : Nat → Nat) (k : Nat) : MessageBatch :=
  { maxSizeInBytes := caps k, messages := [] }

/-- Lifecycle state of a received message, from types/response.ts. -/
inductive MessageState where
  | active
  | deferred
  | scheduled
deriving DecidableEq, Repr

/-- A broker-delivered message with the delivery metadata the receive path
destructures (receiveMessages.ts lines 39 to 59). -/
structure ReceivedMessage where
  body : String
  contentType : Option String
  correlationId : Option String
  deliveryCount : Option Nat
  enqueuedSequenceNumber : Option Nat
  enqueuedTimeUtc : Option Nat
  expiresAtUtc : Option Nat
  messageId : Option String
  partitionKey : Option String
  replyTo : Option String
  replyToSessionId : Option String
  scheduledEnqueueTimeUtc : Option Nat
  sequenceNumber : Option Nat
  sessionId : Option String
  state : MessageState
  subject : Option String
  timeToLive : Option Nat
  «to» : Option String
deriving DecidableEq, Repr

/-- The projection of a received message pushed into the response
(receiveMessages.ts lines 63 to 82), shaped by ReceiveResponseMessage in
types/response.ts. -/
structure ReceiveResponseMessage where
  body : String
  contentType : Option String
  correlationId : Option String
  deliveryCount : Option Nat
  enqueuedSequenceNumber : Option Nat
  enqueuedTimeUtc : Option Nat
  expiresAtUtc : Option Nat
  messageId : Option String
  partitionKey : Option String
  replyTo : Option String
  replyToSessionId : Option String
  scheduledEnqueueTimeUtc : Option Nat
  sequenceNumber : Option Nat
  sessionId : Option String
  state : MessageState
  subject : Option String
  timeToLive : Option Nat
  «to» : Option String
deriving DecidableEq, Repr

/-- Field-for-field copy performed by the push in the receive loop. -/
def projectMessage (m : ReceivedMessage) : ReceiveResponseMessage :=
  { body := m.body
    contentType := m.contentType
    correlationId := m.correlationId
    deliveryCount := m.deliveryCount
    enqueuedSequenceNumber := m.enqueuedSequenceNumber
    enqueuedTimeUtc := m.enqueuedTimeUtc
    expiresAtUtc := m.expiresAtUtc
    messageId := m.messageId
    partitionKey := m.partitionKey
    replyTo := m.replyTo
    replyToSessionId := m.replyToSessionId
    scheduledEnqueueTimeUtc := m.scheduledEnqueueTimeUtc
    sequenceNumber := m.sequenceNumber
    sessionId := m.sessionId
    state := m.state
    subject := m.subject
    timeToLive := m.timeToLive
    «to» := m.«to» }

/-- The `messages` field of a POST body as the validator sees it:
absent (or another falsy value), present but not an array, or an array. -/
inductive MessagesField where
  | absent
  | notArray
  | arr (msgs : List SBMessage)
deriving DecidableEq, Repr

/-- The array content of a validated `messages` field. Only consulted after
validateQueueRequest has confirmed the field is an array. -/
def MessagesField.asArr : MessagesField → List SBMessage
  | .arr msgs => msgs
  | _ => []

/-- POST request body (QueueRequestBody in types/request.ts), with optional
fields as a JSON object has. -/
structure QueueBody where
  queueName : Option String
  messages : MessagesField
deriving DecidableEq, Repr

/-- GET query parameters (ReceiveRequestQuery); query values arrive as
strings. -/
structure ReceiveQuery where
  queueName : Option String
  count : Option String
deriving DecidableEq, Repr

/-- The inbound HTTP request fields the handlers read. -/
structure HttpRequest where
  method : String
  headers : List (String × String)
  body : QueueBody
  query : ReceiveQuery
deriving DecidableEq, Repr

/-- JavaScript truthiness of an optional string: undefined and the empty
string are falsy. -/
def truthy : Option String → Bool
  | none => false
  | some s => s != ""

/-- Process environment: the two connection-string variables the two files
read (queueMessages.ts reads SERVICEBUS_CONNECTION_STRING,
receiveMessages.ts reads SERVICE_BUS_CONNECTION_STRING). -/
structure Env where
  SERVICEBUS_CONNECTION_STRING : Option String
  SERVICE_BUS_CONNECTION_STRING : Option String
deriving DecidableEq, Repr

/-- Result of the JavaScript `Number` coercion on the fragment reachable
from a query string in this code: decimal natural literals yield numbers,
any other non-empty string is modelled as NaN. -/
inductive JsNumber where
  | num (n : Nat)
  | nan
deriving DecidableEq, Repr

def jsNumberOfString (s : String) : JsNumber :=
  if s.data ≠ [] ∧ s.data.all Char.isDigit then
    .num (s.data.foldl (fun n c => n * 10 + (c.toNat - 48)) 0)
  else
    .nan

/-- The maxMessageCount argument of the receive call:
`count ? Number(count) : 1` (receiveMessages.ts line 34); an absent or
empty (falsy) query value defaults to 1. -/
def requestedCount (count : Option String) : JsNumber :=
  match count with
  | none => .num 1
  | some s => if s == "" then .num 1 else jsNumberOfString s

/-- Echo of request fields included in every response body. -/
structure RequestEcho where
  body : Option QueueBody
  headers : List (String × String)
  method : String
  query : Option ReceiveQuery
deriving DecidableEq, Repr

/-- The `{ body, headers, method }` echo used by util.ts and the queue
path. -/
def echoBodyHeadersMethod (req : HttpRequest) : RequestEcho :=
  { body := some req.body
    headers := req.headers
    method := req.method
    query := none }

/-- The `{ headers, method, query }` echo of the receive success
response. -/
def echoHeadersMethodQuery (req : HttpRequest) : RequestEcho :=
  { body := none
    headers := req.headers
    method := req.method
    query := some req.query }

/-- Response body (types/response.ts): status, optional message, optional
message list, request echo. -/
structure ResponseBody where
  status : Nat
  message : Option String
  messages : Option (List ReceiveResponseMessage)
  request : RequestEcho
deriving DecidableEq, Repr

/-- HTTP response envelope. -/
structure Response where
  status : Nat
  headers : List (String × String)
  body : ResponseBody
deriving DecidableEq, Repr

def defaultResponseHeaders : List (String × String) :=
  [("Content-Type", "application/json")]

/-- util.ts createBadRequestResponse. -/
def createBadRequestResponse (req : HttpRequest) (message : String) : Response :=
  { status := 400
    headers := defaultResponseHeaders
    body :=
      { status := 400
        message := some message
        messages := none
        request := echoBodyHeadersMethod req } }

/-- util.ts createErrorResponse. -/
def createErrorResponse (req : HttpRequest) (message : String) : Response :=
  { status := 500
    headers := defaultResponseHeaders
    body :=
      { status := 500
        message := some message
        messages := none
        request := echoBodyHeadersMethod req } }

/-- Broker-visible events of one invocation, in order. `push` marks the
moment a projection is appended to the response list. -/
inductive Effect where
  | constructClient
  | createSender (queueName : String)
  | createReceiver (queueName : String)
  | sendBatch (batch : MessageBatch)
  | receiveCall (maxCount : JsNumber)
  | complete (msg : ReceivedMessage)
  | push (msg : ReceiveResponseMessage)
  | closeSender
  | closeReceiver
  | closeClient
deriving DecidableEq, Repr

/-- How an invocation ends: a response handed to the host, or a rejected
promise propagating an error to the host uncaught. Both carry the broker
events that happened. -/
inductive Outcome where
  | responded (trace : List Effect) (response : Response)
  | uncaught (trace : List Effect) (error : String)
deriving DecidableEq, Repr

/-- The batches passed to sendMessages during a run, in submission
order. -/
def sentBatches (tr : List Effect) : List MessageBatch :=
  tr.filterMap fun e =>
    match e with
    | .sendBatch b => some b
    | _ => none

/-- Outcomes of each broker operation the send path awaits. `sendResult s`
is the outcome of the s-th sendMessages call, `createBatchResult k` of the
k-th createMessageBatch call, `caps k` the capacity the k-th batch
reports. -/
structure SendBroker where
  constructResult : Except String Unit
  createSenderResult : Except String Unit
  caps : Nat → Nat
  createBatchResult : Nat → Except String Unit
  sendResult : Nat → Except String Unit
  senderCloseResult : Except String Unit
  clientCloseResult : Except String Unit

/-- A broker on which every operation succeeds; capacities still vary per
created batch. -/
def reliableBroker (caps : Nat → Nat) : SendBroker :=
  { constructResult := .ok ()
    createSenderResult := .ok ()
    caps := caps
    createBatchResult := fun _ => .ok ()
    sendResult := fun _ => .ok ()
    senderCloseResult := .ok ()
    clientCloseResult := .ok () }

/-- Rendering of the error thrown when a message cannot fit even in a
fresh batch (queueMessages.ts line 40). -/
def tooBigError : String := "Error: Message too big to fit in a batch"

/-- validateQueueRequest (queueMessages.ts lines 71 to 114): some response
means validation failed with that response already set; none means pass.
Checks, in order: connection string, queueName, messages present,
messages is an array. -/
def validateQueueRequest (env : Env) (req : HttpRequest) : Option Response :=
  if truthy env.SERVICEBUS_CONNECTION_STRING = false then
    some (createErrorResponse req
      "\x27SERVICEBUS_CONNECTION_STRING\x27 is missing from environment variables!")
  else if truthy req.body.queueName = false then
    some (createBadRequestResponse req "Missing \x27queueName\x27 from request body!")
  else
    match req.body.messages with
    | .absent => some (createBadRequestResponse req "Missing \x27messages\x27 from request body!")
    | .notArray => some (createBadRequestResponse req "\x27messages\x27 is not an array!")
    | .arr _ => none

/-- The for-of loop of queueMessages.ts lines 30 to 43. Arguments: pending
messages, index k of the next batch to create, index s of the next send
call, current batch. Returns the sendMessages events it performed and
either the final batch (with the next send index) or the error it threw. -/
def queueLoop (broker : SendBroker) :
    List SBMessage → Nat → Nat → MessageBatch →
    List Effect × Except String (Nat × MessageBatch)
  | [], _, s, cur => ([], .ok (s, cur))
  | m :: rest, k, s, cur =>
    match tryAddMessage cur m with
    | some b => queueLoop broker rest k s b
    | none =>
      match broker.sendResult s with
      | .error e => ([Effect.sendBatch cur], .error e)
      | .ok _ =>
        match broker.createBatchResult k with
        | .error e => ([Effect.sendBatch cur], .error e)
        | .ok _ =>
          match tryAddMessage (freshBatch broker.caps k) m with
          | some b =>
            match queueLoop broker rest (k + 1) (s + 1) b with
            | (tr, res) => (Effect.sendBatch cur :: tr, res)
          | none => ([Effect.sendBatch cur], .error tooBigError)

/-- The 200 response of the queue path (queueMessages.ts lines 47 to 56). -/
def queueSuccessResponse (req : HttpRequest) (queueName : String)
    (messages : List SBMessage) : Response :=
  { status := 200
    headers := defaultResponseHeaders
    body :=
      { status := 200
        message := some ("Sent " ++ toString messages.length ++
          " messages to queue: \x27" ++ queueName ++ "\x27")
        messages := none
        request := echoBodyHeadersMethod req } }

/-- The try block of queueMessages.ts lines 28 to 61: create the first
batch, run the loop, send the final batch unconditionally, build the 200
response, close the sender. Returns the events performed and either the
response or the error thrown. -/
def queueTryBlock (broker : SendBroker) (req : HttpRequest) (queueName : String)
    (messages : List SBMessage) : List Effect × Except String Response :=
  match broker.createBatchResult 0 with
  | .error e => ([], .error e)
  | .ok _ =>
    match queueLoop broker messages 1 0 (freshBatch broker.caps 0) with
    | (tr, .error e) => (tr, .error e)
    | (tr, .ok (s, finalBatch)) =>
      match broker.sendResult s with
      | .error e => (tr ++ [Effect.sendBatch finalBatch], .error e)
      | .ok _ =>
        match broker.senderCloseResult with
        | .error e => (tr ++ [Effect.sendBatch finalBatch, Effect.closeSender], .error e)
        | .ok _ =>
          (tr ++ [Effect.sendBatch finalBatch, Effect.closeSender],
            .ok (queueSuccessResponse req queueName messages))

/-- queueMessages (queueMessages.ts lines 12 to 69): validate, construct
client and sender (outside the try statement), run the try block, convert
a thrown error to a 500 response in the catch, close the client in the
finally. An error thrown by construction, createSender, or the client
close escapes uncaught. -/
def queueMessages (env : Env) (broker : SendBroker) (req : HttpRequest) : Outcome :=
  match validateQueueRequest env req with
  | some resp => .responded [] resp
  | none =>
    match broker.constructResult with
    | .error e => .uncaught [] e
    | .ok _ =>
      match broker.createSenderResult with
      | .error e => .uncaught [Effect.constructClient] e
      | .ok _ =>
        match queueTryBlock broker req (req.body.queueName.getD "") req.body.messages.asArr with
        | (tr, res) =>
          match broker.clientCloseResult with
          | .error e =>
            .uncaught ((Effect.constructClient ::
              Effect.createSender (req.body.queueName.getD "") :: tr) ++
              [Effect.closeClient]) e
          | .ok _ =>
            .responded ((Effect.constructClient ::
              Effect.createSender (req.body.queueName.getD "") :: tr) ++
              [Effect.closeClient])
              (match res with
               | .ok r => r
               | .error e => createErrorResponse req e)

/-- Outcomes of each broker operation the receive path awaits.
`completeResult i` is the outcome of the i-th completeMessage call;
`available` is what sits in the queue. -/
structure ReceiveBroker where
  constructResult : Except String Unit
  createReceiverResult : Except String Unit
  receiveResult : Except String Unit
  available : List ReceivedMessage
  completeResult : Nat → Except String Unit
  receiverCloseResult : Except String Unit
  clientCloseResult : Except String Unit

/-- A receive broker on which every operation succeeds. -/
def reliableReceiveBroker (available : List ReceivedMessage) : ReceiveBroker :=
  { constructResult := .ok ()
    createReceiverResult := .ok ()
    receiveResult := .ok ()
    available := available
    completeResult := fun _ => .ok ()
    receiverCloseResult := .ok ()
    clientCloseResult := .ok () }

/-- The awaited `sbReceiver.receiveMessages(count ? Number(count) : 1,
{ maxWaitTimeInMs: 20000 })` call: at most the requested number of
messages come back; the client is modelled as rejecting a NaN
maxMessageCount. -/
def receiveCallResult (broker : ReceiveBroker) (jn : JsNumber) :
    Except String (List ReceivedMessage) :=
  match broker.receiveResult with
  | .error e => .error e
  | .ok _ =>
    match jn with
    | .num n => .ok (broker.available.take n)
    | .nan => .error "TypeError: maxMessageCount is not a number"

/-- The for-of loop of receiveMessages.ts lines 38 to 83: for each
received message, destructure its fields, await completeMessage, then push
the projection. Returns the events performed and either the projected list
or the error thrown. -/
def receiveLoop (broker : ReceiveBroker) :
    List ReceivedMessage → Nat →
    List Effect × Except String (List ReceiveResponseMessage)
  | [], _ => ([], .ok [])
  | m :: rest, i =>
    match broker.completeResult i with
    | .error e => ([Effect.complete m], .error e)
    | .ok _ =>
      match receiveLoop broker rest (i + 1) with
      | (tr, .error e) =>
        (Effect.complete m :: Effect.push (projectMessage m) :: tr, .error e)
      | (tr, .ok pushed) =>
        (Effect.complete m :: Effect.push (projectMessage m) :: tr,
          .ok (projectMessage m :: pushed))

/-- The 200 response of the receive path (receiveMessages.ts lines 86 to
94). -/
def receiveSuccessResponse (req : HttpRequest)
    (msgs : List ReceiveResponseMessage) : Response :=
  { status := 200
    headers := defaultResponseHeaders
    body :=
      { status := 200
        message := none
        messages := some msgs
        request := echoHeadersMethodQuery req } }

/-- The try block of receiveMessages.ts lines 32 to 98: receive, loop,
build the 200 response, close the receiver. -/
def receiveTryBlock (broker : ReceiveBroker) (req : HttpRequest) :
    List Effect × Except String Response :=
  match receiveCallResult broker (requestedCount req.query.count) with
  | .error e => ([Effect.receiveCall (requestedCount req.query.count)], .error e)
  | .ok received =>
    match receiveLoop broker received 0 with
    | (tr, .error e) => (Effect.receiveCall (requestedCount req.query.count) :: tr, .error e)
    | (tr, .ok msgs) =>
      match broker.receiverCloseResult with
      | .error e =>
        ((Effect.receiveCall (requestedCount req.query.count) :: tr) ++
          [Effect.closeReceiver], .error e)
      | .ok _ =>
        ((Effect.receiveCall (requestedCount req.query.count) :: tr) ++
          [Effect.closeReceiver],
          .ok (receiveSuccessResponse req msgs))

/-- validateReceiveRequest (receiveMessages.ts lines 109 to 134): checks,
in order, the connection string then the query queueName. -/
def validateReceiveRequest (env : Env) (req : HttpRequest) : Option Response :=
  if truthy env.SERVICE_BUS_CONNECTION_STRING = false then
    some (createErrorResponse req
      "\x27SERVICE_BUS_CONNECTION_STRING\x27 is missing from environment variables!")
  else if truthy req.query.queueName = false then
    some (createBadRequestResponse req "Missing \x27queueName\x27 from request query!")
  else
    none

/-- receiveMessages (receiveMessages.ts lines 16 to 107): validate,
construct client and receiver (outside the try statement), run the try
block, convert a thrown error to a 500 response in the catch, close the
client in the finally. -/
def receiveMessages (env : Env) (broker : ReceiveBroker) (req : HttpRequest) : Outcome :=
  match validateReceiveRequest env req with
  | some resp => .responded [] resp
  | none =>
    match broker.constructResult with
    | .error e => .uncaught [] e
    | .ok _ =>
      match broker.createReceiverResult with
      | .error e => .uncaught [Effect.constructClient] e
      | .ok _ =>
        match receiveTryBlock broker req with
        | (tr, res) =>
          match broker.clientCloseResult with
          | .error e =>
            .uncaught ((Effect.constructClient ::
              Effect.createReceiver (req.query.queueName.getD "") :: tr) ++
              [Effect.closeClient]) e
          | .ok _ =>
            .responded ((Effect.constructClient ::
              Effect.createReceiver (req.query.queueName.getD "") :: tr) ++
              [Effect.closeClient])
              (match res with
               | .ok r => r
               | .error e => createErrorResponse req e)

/-- The 405 response of index.ts lines 19 to 27. The template literal in
the source opens a quote before the method but never closes it. -/
def methodNotAllowedResponse (req : HttpRequest) : Response :=
  { status := 405
    headers := defaultResponseHeaders
    body :=
      { status := 405
        message := some ("Method \x27" ++ req.method ++ " not allowed!")
        messages := none
        request := echoBodyHeadersMethod req } }

/-- httpTrigger (index.ts): dispatch on the method; GET receives, POST
queues, anything else gets the 405 response. -/
def httpTrigger (env : Env) (sendB : SendBroker) (recvB : ReceiveBroker)
    (req : HttpRequest) : Outcome :=
  if req.method = "GET" then receiveMessages env recvB req
  else if req.method = "POST" then queueMessages env sendB req
  else .responded [] (methodNotAllowedResponse req)


/-! ## Concrete fixtures used by witnesses and counterexamples -/

/-- An environment with both connection-string variables set. -/
def envBoth : Env :=
  { SERVICEBUS_CONNECTION_STRING := some "sb-conn"
    SERVICE_BUS_CONNECTION_STRING := some "sb-conn" }

/-- An environment with neither connection-string variable set. -/
def envNone : Env :=
  { SERVICEBUS_CONNECTION_STRING := none
    SERVICE_BUS_CONNECTION_STRING := none }

/-- A broker that reports capacity 5 for every created batch. -/
def caps5 : Nat → Nat := fun _ => 5

def msgA : SBMessage := { body := "a", size := 2 }

def msgB : SBMessage := { body := "b", size := 2 }

def msgC : SBMessage := { body := "c", size := 2 }

/-- A message whose encoded size exceeds capacity 5 on its own. -/
def msgBig : SBMessage := { body := "big", size := 9 }

/-- A well-formed POST request targeting queue q1. -/
def postReq (msgs : List SBMessage) : HttpRequest :=
  { method := "POST"
    headers := [("x-req", "1")]
    body := { queueName := some "q1", messages := .arr msgs }
    query := { queueName := none, count := none } }

/-- A well-formed GET request targeting queue q1 with the given count
query value. -/
def getReq (c : Option String) : HttpRequest :=
  { method := "GET"
    headers := [("x-req", "1")]
    body := { queueName := none, messages := .absent }
    query := { queueName := some "q1", count := c } }

/-- A PUT request, otherwise shaped like postReq. -/
def putReq : HttpRequest :=
  { method := "PUT"
    headers := [("x-req", "1")]
    body := { queueName := some "q1", messages := .arr [] }
    query := { queueName := none, count := none } }

/-- A POST request whose body has no queueName. -/
def postReqNoQueueName : HttpRequest :=
  { method := "POST"
    headers := [("x-req", "1")]
    body := { queueName := none, messages := .arr [] }
    query := { queueName := none, count := none } }

/-- A GET request whose query has no queueName. -/
def getReqNoQueueName : HttpRequest :=
  { method := "GET"
    headers := [("x-req", "1")]
    body := { queueName := none, messages := .absent }
    query := { queueName := none, count := none } }

/-- A delivered message with the given body. -/
def sampleMsg (b : String) : ReceivedMessage :=
  { body := b, contentType := none, correlationId := none, deliveryCount := some 1
    enqueuedSequenceNumber := none, enqueuedTimeUtc := none, expiresAtUtc := none
    messageId := some b, partitionKey := none, replyTo := none, replyToSessionId := none
    scheduledEnqueueTimeUtc := none, sequenceNumber := none, sessionId := none
    state := .active, subject := none, timeToLive := none, «to» := none }

/-- A send broker whose every sendMessages call rejects. -/
def failSendBroker : SendBroker :=
  { reliableBroker caps5 with sendResult := fun _ => .error "Error: socket closed" }

/-- A send broker whose client construction throws. -/
def failConstructBroker : SendBroker :=
  { reliableBroker caps5 with constructResult := .error "Error: bad connection string" }

/-! ## Helper lemmas about the batching loop -/

theorem tryAddMessage_some {b : MessageBatch} {m : SBMessage} {b2 : MessageBatch}
    (h : tryAddMessage b m = some b2) :
    b2.messages = b.messages ++ [m] ∧ b2.maxSizeInBytes = b.maxSizeInBytes ∧
      b2.sizeInBytes ≤ b2.maxSizeInBytes := by
  unfold tryAddMessage at h
  split at h
  case isTrue hle =>
    cases h
    refine ⟨rfl, rfl, ?_⟩
    simpa [MessageBatch.sizeInBytes] using hle
  case isFalse => exact absurd h (by simp)

theorem tryAddMessage_none {b : MessageBatch} {m : SBMessage}
    (h : tryAddMessage b m = none) :
    b.maxSizeInBytes < b.sizeInBytes + m.size := by
  unfold tryAddMessage at h
  split at h
  case isTrue => exact absurd h (by simp)
  case isFalse hgt => omega

theorem sentBatches_nil : sentBatches [] = [] := rfl

theorem sentBatches_cons_send (b : MessageBatch) (tr : List Effect) :
    sentBatches (Effect.sendBatch b :: tr) = b :: sentBatches tr := by
  simp [sentBatches]

theorem sentBatches_append (t1 t2 : List Effect) :
    sentBatches (t1 ++ t2) = sentBatches t1 ++ sentBatches t2 := by
  simp [sentBatches]

/-- The loop, when it returns normally, has submitted batches whose
concatenation together with the final batch restores the current batch
content followed by the pending input; every batch involved stays within
its capacity. -/
theorem queueLoop_ok (broker : SendBroker) :
    ∀ (msgs : List SBMessage) (k s : Nat) (cur : MessageBatch) (tr : List Effect)
      (s2 : Nat) (fb : MessageBatch),
      queueLoop broker msgs k s cur = (tr, .ok (s2, fb)) →
      ((sentBatches tr).map MessageBatch.messages).flatten ++ fb.messages =
        cur.messages ++ msgs ∧
      (cur.sizeInBytes ≤ cur.maxSizeInBytes →
        (∀ b ∈ sentBatches tr, b.sizeInBytes ≤ b.maxSizeInBytes) ∧
        fb.sizeInBytes ≤ fb.maxSizeInBytes) := by
  intro msgs
  induction msgs with
  | nil =>
    intro k s cur tr s2 fb h
    simp only [queueLoop, Prod.mk.injEq, Except.ok.injEq] at h
    obtain ⟨htr, hs, hcur⟩ := h
    subst htr; subst hcur
    simp [sentBatches_nil]
  | cons m rest ih =>
    intro k s cur tr s2 fb h
    rw [queueLoop] at h
    cases h1 : tryAddMessage cur m with
    | some b =>
      simp only [h1] at h
      obtain ⟨hjoin, hwf⟩ := ih k s b tr s2 fb h
      obtain ⟨hbm, _, hbwf⟩ := tryAddMessage_some h1
      constructor
      · rw [hjoin, hbm]; simp
      · intro _
        exact hwf hbwf
    | none =>
      simp only [h1] at h
      cases h2 : broker.sendResult s with
      | error e => simp only [h2] at h; simp at h
      | ok u =>
        simp only [h2] at h
        cases h3 : broker.createBatchResult k with
        | error e => simp only [h3] at h; simp at h
        | ok u2 =>
          simp only [h3] at h
          cases h4 : tryAddMessage (freshBatch broker.caps k) m with
          | none => simp only [h4] at h; simp at h
          | some b =>
            simp only [h4] at h
            rcases h5 : queueLoop broker rest (k + 1) (s + 1) b with ⟨tr2, res⟩
            rw [h5] at h
            simp only [Prod.mk.injEq] at h
            obtain ⟨htr, hres⟩ := h
            subst htr
            rw [hres] at h5
            obtain ⟨hjoin, hwf⟩ := ih (k + 1) (s + 1) b tr2 s2 fb h5
            obtain ⟨hbm, _, hbwf⟩ := tryAddMessage_some h4
            have hfresh : (freshBatch broker.caps k).messages = [] := rfl
            constructor
            · rw [sentBatches_cons_send]
              simp only [List.map_cons, List.flatten_cons, List.append_assoc]
              rw [hjoin, hbm, hfresh]
              simp
            · intro hcur
              obtain ⟨hall, hfb⟩ := hwf hbwf
              refine ⟨?_, hfb⟩
              intro x hx
              rw [sentBatches_cons_send] at hx
              rcases List.mem_cons.mp hx with hx | hx
              · subst hx; exact hcur
              · exact hall x hx

/-- The loop, when it throws, threw the message-too-big error: the input
splits as pre ++ m :: suf where the batches submitted so far carry exactly
the current content followed by pre, and m alone exceeds the capacity the
broker reported for some created batch. Requires a broker whose send and
create-batch operations succeed, so the only throw left is the too-big
one. -/
theorem queueLoop_err (broker : SendBroker)
    (hsend : ∀ s, broker.sendResult s = .ok ())
    (hcreate : ∀ k, broker.createBatchResult k = .ok ()) :
    ∀ (msgs : List SBMessage) (k s : Nat) (cur : MessageBatch) (tr : List Effect)
      (e : String),
      queueLoop broker msgs k s cur = (tr, .error e) →
      e = tooBigError ∧
      ∃ pre m suf, msgs = pre ++ m :: suf ∧
        ((sentBatches tr).map MessageBatch.messages).flatten = cur.messages ++ pre ∧
        (∃ j, broker.caps j < m.size) ∧
        (cur.sizeInBytes ≤ cur.maxSizeInBytes →
          ∀ b ∈ sentBatches tr, b.sizeInBytes ≤ b.maxSizeInBytes) := by
  intro msgs
  induction msgs with
  | nil =>
    intro k s cur tr e h
    simp [queueLoop] at h
  | cons m rest ih =>
    intro k s cur tr e h
    rw [queueLoop] at h
    cases h1 : tryAddMessage cur m with
    | some b =>
      simp only [h1] at h
      obtain ⟨he, pre, m2, suf, hsplit, hjoin, hcap, hwf⟩ := ih k s b tr e h
      obtain ⟨hbm, _, hbwf⟩ := tryAddMessage_some h1
      refine ⟨he, m :: pre, m2, suf, by simp [hsplit], ?_, hcap, ?_⟩
      · rw [hjoin, hbm]; simp
      · intro _
        exact hwf hbwf
    | none =>
      simp only [h1, hsend s, hcreate k] at h
      cases h4 : tryAddMessage (freshBatch broker.caps k) m with
      | none =>
        simp only [h4, Prod.mk.injEq, Except.error.injEq] at h
        obtain ⟨htr, he⟩ := h
        subst htr
        have hlt := tryAddMessage_none h4
        have hfresh : (freshBatch broker.caps k).sizeInBytes = 0 := rfl
        refine ⟨he.symm, [], m, rest, rfl, ?_, ⟨k, ?_⟩, ?_⟩
        · rw [sentBatches_cons_send, sentBatches_nil]; simp
        · simpa [freshBatch, MessageBatch.sizeInBytes] using hlt
        · intro hcur
          intro x hx
          rw [sentBatches_cons_send, sentBatches_nil] at hx
          rcases List.mem_cons.mp hx with hx | hx
          · subst hx; exact hcur
          · simp at hx
      | some b =>
        simp only [h4] at h
        rcases h5 : queueLoop broker rest (k + 1) (s + 1) b with ⟨tr2, res⟩
        rw [h5] at h
        simp only [Prod.mk.injEq] at h
        obtain ⟨htr, hres⟩ := h
        subst htr
        rw [hres] at h5
        obtain ⟨he, pre, m2, suf, hsplit, hjoin, hcap, hwf⟩ :=
          ih (k + 1) (s + 1) b tr2 e h5
        obtain ⟨hbm, _, hbwf⟩ := tryAddMessage_some h4
        have hfresh : (freshBatch broker.caps k).messages = [] := rfl
        refine ⟨he, m :: pre, m2, suf, by simp [hsplit], ?_, hcap, ?_⟩
        · rw [sentBatches_cons_send]
          simp only [List.map_cons, List.flatten_cons, List.append_assoc]
          rw [hjoin, hbm, hfresh]
          simp
        · intro hcur
          intro x hx
          rw [sentBatches_cons_send] at hx
          rcases List.mem_cons.mp hx with hx | hx
          · subst hx; exact hcur
          · exact hwf hbwf x hx

/-- On a broker whose completes all succeed, the receive loop completes
then pushes each received message in order and returns their projections
in order. -/
theorem receiveLoop_ok (broker : ReceiveBroker)
    (hcomp : ∀ i, broker.completeResult i = .ok ()) :
    ∀ (received : List ReceivedMessage) (i : Nat),
      receiveLoop broker received i =
        ((received.map fun m =>
            [Effect.complete m, Effect.push (projectMessage m)]).flatten,
          .ok (received.map projectMessage)) := by
  intro received
  induction received with
  | nil => intro i; rfl
  | cons m rest ih =>
    intro i
    rw [receiveLoop]
    simp [hcomp i, ih (i + 1)]

/-- A failing validation on the queue path responds 400 or 500. -/
theorem validateQueueRequest_some_status {env : Env} {req : HttpRequest}
    {resp : Response} (h : validateQueueRequest env req = some resp) :
    resp.status = 400 ∨ resp.status = 500 := by
  unfold validateQueueRequest at h
  split at h
  · cases h; right; rfl
  · split at h
    · cases h; left; rfl
    · split at h
      · cases h; left; rfl
      · cases h; left; rfl
      · cases h

/-- A failing validation on the receive path responds 400 or 500. -/
theorem validateReceiveRequest_some_status {env : Env} {req : HttpRequest}
    {resp : Response} (h : validateReceiveRequest env req = some resp) :
    resp.status = 400 ∨ resp.status = 500 := by
  unfold validateReceiveRequest at h
  split at h
  · cases h; right; rfl
  · split at h
    · cases h; left; rfl
    · cases h

/-- Validation of the queue path passes when the connection string is set,
the queueName truthy, and messages an array. -/
theorem validateQueueRequest_pass {env : Env} {req : HttpRequest}
    (hconn : truthy env.SERVICEBUS_CONNECTION_STRING = true)
    (hq : truthy req.body.queueName = true)
    {msgs : List SBMessage} (hm : req.body.messages = .arr msgs) :
    validateQueueRequest env req = none := by
  unfold validateQueueRequest
  rw [hconn, hq, hm]
  simp

/-- Validation of the receive path passes when the connection string is
set and the query queueName truthy. -/
theorem validateReceiveRequest_pass {env : Env} {req : HttpRequest}
    (hconn : truthy env.SERVICE_BUS_CONNECTION_STRING = true)
    (hq : truthy req.query.queueName = true) :
    validateReceiveRequest env req = none := by
  unfold validateReceiveRequest
  rw [hconn, hq]
  simp

/-- The try block of the queue path succeeds only with the success
response, a trace that closes the sender last, right after sending the
final batch. -/
theorem queueTryBlock_ok {broker : SendBroker} {req : HttpRequest}
    {queueName : String} {messages : List SBMessage} {tr : List Effect}
    {resp : Response}
    (h : queueTryBlock broker req queueName messages = (tr, .ok resp)) :
    resp = queueSuccessResponse req queueName messages ∧
    ∃ t fb, tr = t ++ [Effect.sendBatch fb, Effect.closeSender] := by
  unfold queueTryBlock at h
  cases h0 : broker.createBatchResult 0 with
  | error e => simp only [h0] at h; simp at h
  | ok u =>
    simp only [h0] at h
    rcases h1 : queueLoop broker messages 1 0 (freshBatch broker.caps 0) with ⟨trL, res⟩
    rw [h1] at h
    cases res with
    | error e => simp at h
    | ok p =>
      rcases p with ⟨s, fb⟩
      cases h2 : broker.sendResult s with
      | error e => simp only [h2] at h; simp at h
      | ok u2 =>
        simp only [h2] at h
        cases h3 : broker.senderCloseResult with
        | error e => simp only [h3] at h; simp at h
        | ok u3 =>
          simp only [h3, Prod.mk.injEq, Except.ok.injEq] at h
          obtain ⟨htr, hresp⟩ := h
          exact ⟨hresp.symm, trL, fb, by rw [← htr]⟩

/-- The try block of the receive path succeeds only with the success
response and a trace that closes the receiver last. -/
theorem receiveTryBlock_ok {broker : ReceiveBroker} {req : HttpRequest}
    {tr : List Effect} {resp : Response}
    (h : receiveTryBlock broker req = (tr, .ok resp)) :
    (∃ msgs, resp = receiveSuccessResponse req msgs) ∧
    ∃ t, tr = t ++ [Effect.closeReceiver] := by
  unfold receiveTryBlock at h
  cases h0 : receiveCallResult broker (requestedCount req.query.count) with
  | error e => simp only [h0] at h; simp at h
  | ok received =>
    simp only [h0] at h
    rcases h1 : receiveLoop broker received 0 with ⟨trL, res⟩
    rw [h1] at h
    cases res with
    | error e => simp at h
    | ok msgs =>
      cases h2 : broker.receiverCloseResult with
      | error e => simp only [h2] at h; simp at h
      | ok u =>
        simp only [h2, Prod.mk.injEq, Except.ok.injEq] at h
        obtain ⟨htr, hresp⟩ := h
        exact ⟨⟨msgs, hresp.symm⟩, _, by rw [← htr]⟩

theorem reliableBroker_construct (caps : Nat → Nat) :
    (reliableBroker caps).constructResult = .ok () := rfl

theorem reliableBroker_createSender (caps : Nat → Nat) :
    (reliableBroker caps).createSenderResult = .ok () := rfl

theorem reliableBroker_caps (caps : Nat → Nat) :
    (reliableBroker caps).caps = caps := rfl

theorem reliableBroker_createBatch (caps : Nat → Nat) (k : Nat) :
    (reliableBroker caps).createBatchResult k = .ok () := rfl

theorem reliableBroker_send (caps : Nat → Nat) (s : Nat) :
    (reliableBroker caps).sendResult s = .ok () := rfl

theorem reliableBroker_senderClose (caps : Nat → Nat) :
    (reliableBroker caps).senderCloseResult = .ok () := rfl

theorem reliableBroker_clientClose (caps : Nat → Nat) :
    (reliableBroker caps).clientCloseResult = .ok () := rfl

/-- How the queue handler assembles its outcome once validation passes and
construction, createSender and the final client close succeed. -/
theorem queueMessages_unfold {env : Env} {broker : SendBroker} {req : HttpRequest}
    {trB : List Effect} {res : Except String Response}
    (hval : validateQueueRequest env req = none)
    (hcons : broker.constructResult = .ok ())
    (hsndr : broker.createSenderResult = .ok ())
    (hclose : broker.clientCloseResult = .ok ())
    (hT : queueTryBlock broker req (req.body.queueName.getD "")
      req.body.messages.asArr = (trB, res)) :
    queueMessages env broker req =
      .responded ((Effect.constructClient ::
          Effect.createSender (req.body.queueName.getD "") :: trB) ++
          [Effect.closeClient])
        (match res with
         | .ok r => r
         | .error e => createErrorResponse req e) := by
  unfold queueMessages
  simp only [hval, hcons, hsndr, hT, hclose]
  cases res <;> rfl

/-- How the receive handler assembles its outcome once validation passes
and construction, createReceiver and the final client close succeed. -/
theorem receiveMessages_unfold {env : Env} {broker : ReceiveBroker} {req : HttpRequest}
    {trB : List Effect} {res : Except String Response}
    (hval : validateReceiveRequest env req = none)
    (hcons : broker.constructResult = .ok ())
    (hrecv : broker.createReceiverResult = .ok ())
    (hclose : broker.clientCloseResult = .ok ())
    (hT : receiveTryBlock broker req = (trB, res)) :
    receiveMessages env broker req =
      .responded ((Effect.constructClient ::
          Effect.createReceiver (req.query.queueName.getD "") :: trB) ++
          [Effect.closeClient])
        (match res with
         | .ok r => r
         | .error e => createErrorResponse req e) := by
  unfold receiveMessages
  simp only [hval, hcons, hrecv, hT, hclose]
  cases res <;> rfl

/-- On a broker whose operations all succeed, a successful try block has
submitted batches concatenating exactly to the input, each within the
capacity reported at its creation. -/
theorem queueTryBlock_reliable_ok {caps : Nat → Nat} {req : HttpRequest}
    {queueName : String} {messages : List SBMessage} {trB : List Effect}
    {resp : Response}
    (h : queueTryBlock (reliableBroker caps) req queueName messages = (trB, .ok resp)) :
    resp = queueSuccessResponse req queueName messages ∧
    ((sentBatches trB).map MessageBatch.messages).flatten = messages ∧
    ∀ b ∈ sentBatches trB, b.sizeInBytes ≤ b.maxSizeInBytes := by
  unfold queueTryBlock at h
  rw [reliableBroker_createBatch] at h
  rcases hL : queueLoop (reliableBroker caps) messages 1 0
      (freshBatch (reliableBroker caps).caps 0) with ⟨trL, res⟩
  rw [hL] at h
  cases res with
  | error e => simp at h
  | ok p =>
    rcases p with ⟨s, fb⟩
    simp only [reliableBroker_send, reliableBroker_senderClose,
      Prod.mk.injEq, Except.ok.injEq] at h
    obtain ⟨htr, hresp⟩ := h
    subst htr
    obtain ⟨hjoin, hwf⟩ := queueLoop_ok (reliableBroker caps) messages 1 0
      (freshBatch (reliableBroker caps).caps 0) trL s fb hL
    have hfreshmsgs : (freshBatch (reliableBroker caps).caps 0).messages = [] := rfl
    have hfreshwf : (freshBatch (reliableBroker caps).caps 0).sizeInBytes ≤
        (freshBatch (reliableBroker caps).caps 0).maxSizeInBytes := by
      simp [freshBatch, MessageBatch.sizeInBytes]
    obtain ⟨hall, hfb⟩ := hwf hfreshwf
    rw [hfreshmsgs] at hjoin
    have hsb : sentBatches (trL ++ [Effect.sendBatch fb, Effect.closeSender]) =
        sentBatches trL ++ [fb] := by
      rw [sentBatches_append]; rfl
    refine ⟨hresp.symm, ?_, ?_⟩
    · rw [hsb]
      simp only [List.map_append, List.map_cons, List.map_nil,
        List.flatten_append, List.flatten_cons, List.flatten_nil, List.append_nil]
      rw [hjoin]
      simp
    · intro b hb
      rw [hsb] at hb
      rcases List.mem_append.mp hb with hb | hb
      · exact hall b hb
      · simp at hb
        subst hb
        exact hfb

/-- On a broker whose operations all succeed, the try block can only throw
the message-too-big error; the batches submitted before the throw carry
exactly the input prefix strictly before the offending message, which
alone exceeds a reported capacity. -/
theorem queueTryBlock_reliable_err {caps : Nat → Nat} {req : HttpRequest}
    {queueName : String} {messages : List SBMessage} {trB : List Effect}
    {e : String}
    (h : queueTryBlock (reliableBroker caps) req queueName messages = (trB, .error e)) :
    e = tooBigError ∧
    ∃ pre m suf, messages = pre ++ m :: suf ∧
      ((sentBatches trB).map MessageBatch.messages).flatten = pre ∧
      (∃ j, caps j < m.size) ∧
      ∀ b ∈ sentBatches trB, b.sizeInBytes ≤ b.maxSizeInBytes := by
  unfold queueTryBlock at h
  rw [reliableBroker_createBatch] at h
  rcases hL : queueLoop (reliableBroker caps) messages 1 0
      (freshBatch (reliableBroker caps).caps 0) with ⟨trL, res⟩
  rw [hL] at h
  cases res with
  | ok p =>
    rcases p with ⟨s, fb⟩
    simp only [reliableBroker_send, reliableBroker_senderClose] at h
    simp at h
  | error e0 =>
    simp only [Prod.mk.injEq, Except.error.injEq] at h
    obtain ⟨htr, he⟩ := h
    subst htr
    subst he
    obtain ⟨he, pre, m, suf, hsplit, hjoin, hcap, hwf⟩ :=
      queueLoop_err (reliableBroker caps)
        (reliableBroker_send caps) (reliableBroker_createBatch caps)
        messages 1 0 (freshBatch (reliableBroker caps).caps 0) trL e0 hL
    have hfreshmsgs : (freshBatch (reliableBroker caps).caps 0).messages = [] := rfl
    have hfreshwf : (freshBatch (reliableBroker caps).caps 0).sizeInBytes ≤
        (freshBatch (reliableBroker caps).caps 0).maxSizeInBytes := by
      simp [freshBatch, MessageBatch.sizeInBytes]
    rw [hfreshmsgs] at hjoin
    exact ⟨he, pre, m, suf, hsplit, by simpa using hjoin, hcap, hwf hfreshwf⟩

/-! ## Claim theorems -/

/-- Claim C1: for every non-empty input message sequence on the send path,
on a run where the operation succeeds (responds 200, broker operations all
succeeding, per-batch capacities arbitrary), the sequence of batches
passed to sendMessages, concatenated in submission order, equals the input
sequence, and every submitted batch is within the capacity the broker
reported when that batch was packed (its maxSizeInBytes). -/
theorem C1_queue_send_concat (env : Env) (caps : Nat → Nat) (req : HttpRequest)
    (msgs : List SBMessage) (tr : List Effect) (resp : Response)
    (hconn : truthy env.SERVICEBUS_CONNECTION_STRING = true)
    (hq : truthy req.body.queueName = true)
    (hm : req.body.messages = .arr msgs)
    (_hne : msgs ≠ [])
    (hrun : queueMessages env (reliableBroker caps) req = .responded tr resp)
    (h200 : resp.status = 200) :
    ((sentBatches tr).map MessageBatch.messages).flatten = msgs ∧
    ∀ b ∈ sentBatches tr, b.sizeInBytes ≤ b.maxSizeInBytes := by
  have hval := validateQueueRequest_pass hconn hq hm
  have hmsgs : req.body.messages.asArr = msgs := by rw [hm]; rfl
  rcases hT : queueTryBlock (reliableBroker caps) req (req.body.queueName.getD "")
      req.body.messages.asArr with ⟨trB, res⟩
  rw [queueMessages_unfold hval (reliableBroker_construct caps)
      (reliableBroker_createSender caps) (reliableBroker_clientClose caps) hT] at hrun
  cases res with
  | error e =>
    simp only [Outcome.responded.injEq] at hrun
    obtain ⟨htr, hresp⟩ := hrun
    rw [← hresp] at h200
    simp [createErrorResponse] at h200
  | ok r =>
    simp only [Outcome.responded.injEq] at hrun
    obtain ⟨htr, hresp⟩ := hrun
    rw [hmsgs] at hT
    obtain ⟨hrsp, hjoin, hwf⟩ := queueTryBlock_reliable_ok hT
    have hsb : sentBatches tr = sentBatches trB := by
      rw [← htr, sentBatches_append]
      simp [sentBatches]
    rw [hsb]
    exact ⟨hjoin, hwf⟩

theorem C1_queue_send_concat_witness :
    ((sentBatches [Effect.constructClient, Effect.createSender "q1",
        Effect.sendBatch { maxSizeInBytes := 5, messages := [msgA, msgB] },
        Effect.sendBatch { maxSizeInBytes := 5, messages := [msgC] },
        Effect.closeSender, Effect.closeClient]).map MessageBatch.messages).flatten =
      [msgA, msgB, msgC] ∧
    ∀ b ∈ sentBatches [Effect.constructClient, Effect.createSender "q1",
        Effect.sendBatch { maxSizeInBytes := 5, messages := [msgA, msgB] },
        Effect.sendBatch { maxSizeInBytes := 5, messages := [msgC] },
        Effect.closeSender, Effect.closeClient],
      b.sizeInBytes ≤ b.maxSizeInBytes :=
  C1_queue_send_concat envBoth caps5 (postReq [msgA, msgB, msgC])
    [msgA, msgB, msgC]
    [Effect.constructClient, Effect.createSender "q1",
      Effect.sendBatch { maxSizeInBytes := 5, messages := [msgA, msgB] },
      Effect.sendBatch { maxSizeInBytes := 5, messages := [msgC] },
      Effect.closeSender, Effect.closeClient]
    (queueSuccessResponse (postReq [msgA, msgB, msgC]) "q1" [msgA, msgB, msgC])
    rfl rfl rfl (by decide) rfl rfl

/-- Claim C2: on the send path (broker operations succeeding, so the only
throw is the too-big one), a run that does not succeed fails with the
fatal message-too-big error converted to a 500 envelope; the input splits
as pre ++ m :: suf where the submitted batches concatenate to exactly pre,
so the offending message m is never sent, not even partially, and no batch
created after the failure point is submitted, while the batches submitted
earlier are precisely the sendMessages calls in the trace (no rollback);
m alone exceeds a capacity the broker reported for a created batch. -/
theorem C2_too_big_fatal (env : Env) (caps : Nat → Nat) (req : HttpRequest)
    (msgs : List SBMessage) (tr : List Effect) (resp : Response)
    (hconn : truthy env.SERVICEBUS_CONNECTION_STRING = true)
    (hq : truthy req.body.queueName = true)
    (hm : req.body.messages = .arr msgs)
    (hrun : queueMessages env (reliableBroker caps) req = .responded tr resp)
    (hfail : resp.status ≠ 200) :
    resp = createErrorResponse req tooBigError ∧
    ∃ pre m suf, msgs = pre ++ m :: suf ∧
      ((sentBatches tr).map MessageBatch.messages).flatten = pre ∧
      (∃ j, caps j < m.size) ∧
      ∀ b ∈ sentBatches tr, b.sizeInBytes ≤ b.maxSizeInBytes := by
  have hval := validateQueueRequest_pass hconn hq hm
  have hmsgs : req.body.messages.asArr = msgs := by rw [hm]; rfl
  rcases hT : queueTryBlock (reliableBroker caps) req (req.body.queueName.getD "")
      req.body.messages.asArr with ⟨trB, res⟩
  rw [queueMessages_unfold hval (reliableBroker_construct caps)
      (reliableBroker_createSender caps) (reliableBroker_clientClose caps) hT] at hrun
  cases res with
  | ok r =>
    simp only [Outcome.responded.injEq] at hrun
    obtain ⟨htr, hresp⟩ := hrun
    rw [hmsgs] at hT
    obtain ⟨hrsp, _, _⟩ := queueTryBlock_reliable_ok hT
    rw [← hresp, hrsp] at hfail
    simp [queueSuccessResponse] at hfail
  | error e =>
    simp only [Outcome.responded.injEq] at hrun
    obtain ⟨htr, hresp⟩ := hrun
    rw [hmsgs] at hT
    obtain ⟨he, pre, m, suf, hsplit, hjoin, hcap, hwf⟩ := queueTryBlock_reliable_err hT
    have hsb : sentBatches tr = sentBatches trB := by
      rw [← htr, sentBatches_append]
      simp [sentBatches]
    subst he
    refine ⟨hresp.symm, pre, m, suf, hsplit, ?_, hcap, ?_⟩
    · rw [hsb]; exact hjoin
    · rw [hsb]; exact hwf

theorem C2_too_big_fatal_witness :
    createErrorResponse (postReq [msgA, msgBig]) tooBigError =
      createErrorResponse (postReq [msgA, msgBig]) tooBigError ∧
    ∃ pre m suf, [msgA, msgBig] = pre ++ m :: suf ∧
      ((sentBatches [Effect.constructClient, Effect.createSender "q1",
          Effect.sendBatch { maxSizeInBytes := 5, messages := [msgA] },
          Effect.closeClient]).map MessageBatch.messages).flatten = pre ∧
      (∃ j, caps5 j < m.size) ∧
      ∀ b ∈ sentBatches [Effect.constructClient, Effect.createSender "q1",
          Effect.sendBatch { maxSizeInBytes := 5, messages := [msgA] },
          Effect.closeClient],
        b.sizeInBytes ≤ b.maxSizeInBytes :=
  C2_too_big_fatal envBoth caps5 (postReq [msgA, msgBig]) [msgA, msgBig]
    [Effect.constructClient, Effect.createSender "q1",
      Effect.sendBatch { maxSizeInBytes := 5, messages := [msgA] },
      Effect.closeClient]
    (createErrorResponse (postReq [msgA, msgBig]) tooBigError)
    rfl rfl rfl rfl (by decide)

/-- Claim C3 counterexample: for an empty (but valid) messages array the
handler still makes a sendMessages call, with the empty final batch, while
the claim says none is made; the run responds 200. -/
theorem C3_empty_input_cex :
    queueMessages envBoth (reliableBroker caps5) (postReq []) =
      .responded [Effect.constructClient, Effect.createSender "q1",
        Effect.sendBatch { maxSizeInBytes := 5, messages := [] },
        Effect.closeSender, Effect.closeClient]
        (queueSuccessResponse (postReq []) "q1" []) ∧
    sentBatches [Effect.constructClient, Effect.createSender "q1",
        Effect.sendBatch { maxSizeInBytes := 5, messages := [] },
        Effect.closeSender, Effect.closeClient] =
      [{ maxSizeInBytes := 5, messages := [] }] :=
  ⟨rfl, rfl⟩

/-- Claim C3 amended: the final batch is submitted unconditionally once
the input is exhausted, even when it is empty; in particular, for an empty
(but valid) messages array exactly one sendMessages call is made, carrying
the empty first batch. -/
theorem C3_final_batch_always_sent (env : Env) (caps : Nat → Nat)
    (req : HttpRequest)
    (hconn : truthy env.SERVICEBUS_CONNECTION_STRING = true)
    (hq : truthy req.body.queueName = true)
    (hm : req.body.messages = .arr []) :
    queueMessages env (reliableBroker caps) req =
      .responded [Effect.constructClient,
        Effect.createSender (req.body.queueName.getD ""),
        Effect.sendBatch (freshBatch caps 0), Effect.closeSender,
        Effect.closeClient]
        (queueSuccessResponse req (req.body.queueName.getD "") []) := by
  have hval := validateQueueRequest_pass hconn hq hm
  have hmsgs : req.body.messages.asArr = [] := by rw [hm]; rfl
  have hT : queueTryBlock (reliableBroker caps) req (req.body.queueName.getD "")
      req.body.messages.asArr =
      ([Effect.sendBatch (freshBatch caps 0), Effect.closeSender],
        .ok (queueSuccessResponse req (req.body.queueName.getD "") [])) := by
    rw [hmsgs]; rfl
  rw [queueMessages_unfold hval (reliableBroker_construct caps)
      (reliableBroker_createSender caps) (reliableBroker_clientClose caps) hT]
  rfl

theorem C3_final_batch_always_sent_witness :
    queueMessages envBoth (reliableBroker caps5) (postReq []) =
      .responded [Effect.constructClient, Effect.createSender "q1",
        Effect.sendBatch (freshBatch caps5 0), Effect.closeSender,
        Effect.closeClient]
        (queueSuccessResponse (postReq []) "q1" []) :=
  C3_final_batch_always_sent envBoth caps5 (postReq []) rfl rfl rfl

theorem reliableReceiveBroker_construct (avail : List ReceivedMessage) :
    (reliableReceiveBroker avail).constructResult = .ok () := rfl

theorem reliableReceiveBroker_createReceiver (avail : List ReceivedMessage) :
    (reliableReceiveBroker avail).createReceiverResult = .ok () := rfl

theorem reliableReceiveBroker_clientClose (avail : List ReceivedMessage) :
    (reliableReceiveBroker avail).clientCloseResult = .ok () := rfl

theorem reliableReceiveBroker_receiverClose (avail : List ReceivedMessage) :
    (reliableReceiveBroker avail).receiverCloseResult = .ok () := rfl

/-- Claim C4: for every requested count n (a natural number, hence at
least zero) on the receive path with all broker operations succeeding, the
run responds 200 with exactly the projections of the first at-most-n
available messages, in order; the trace shows each returned message is
completed (acknowledged) and only then pushed into the response, one
message at a time, in the order received, and nothing else is completed;
the number of returned messages is at most n. -/
theorem C4_receive_ack_exactly_returned (env : Env)
    (avail : List ReceivedMessage) (req : HttpRequest) (q : String) (n : Nat)
    (hconn : truthy env.SERVICE_BUS_CONNECTION_STRING = true)
    (hq : req.query.queueName = some q) (hqne : q ≠ "")
    (hcount : requestedCount req.query.count = .num n) :
    receiveMessages env (reliableReceiveBroker avail) req =
      .responded
        ((Effect.constructClient :: Effect.createReceiver q ::
          (Effect.receiveCall (.num n) ::
            ((avail.take n).map fun m =>
              [Effect.complete m, Effect.push (projectMessage m)]).flatten) ++
          [Effect.closeReceiver]) ++ [Effect.closeClient])
        (receiveSuccessResponse req ((avail.take n).map projectMessage)) ∧
    ((avail.take n).map projectMessage).length ≤ n := by
  have hqt : truthy req.query.queueName = true := by
    rw [hq]; simp [truthy, hqne]
  have hval := validateReceiveRequest_pass hconn hqt
  have hQ : req.query.queueName.getD "" = q := by rw [hq]; rfl
  have hcall : receiveCallResult (reliableReceiveBroker avail) (JsNumber.num n) =
      .ok (avail.take n) := rfl
  have hT : receiveTryBlock (reliableReceiveBroker avail) req =
      ((Effect.receiveCall (.num n) ::
        ((avail.take n).map fun m =>
          [Effect.complete m, Effect.push (projectMessage m)]).flatten) ++
        [Effect.closeReceiver],
        .ok (receiveSuccessResponse req ((avail.take n).map projectMessage))) := by
    unfold receiveTryBlock
    simp only [hcount, hcall,
      receiveLoop_ok (reliableReceiveBroker avail) (fun i => rfl) (avail.take n) 0,
      reliableReceiveBroker_receiverClose]
  rw [receiveMessages_unfold hval (reliableReceiveBroker_construct avail)
      (reliableReceiveBroker_createReceiver avail)
      (reliableReceiveBroker_clientClose avail) hT, hQ]
  refine ⟨rfl, ?_⟩
  rw [List.length_map, List.length_take]
  exact min_le_left _ _

theorem C4_receive_ack_exactly_returned_witness :
    receiveMessages envBoth
      (reliableReceiveBroker [sampleMsg "m1", sampleMsg "m2", sampleMsg "m3"])
      (getReq (some "2")) =
      .responded
        ((Effect.constructClient :: Effect.createReceiver "q1" ::
          (Effect.receiveCall (.num 2) ::
            (([sampleMsg "m1", sampleMsg "m2", sampleMsg "m3"].take 2).map fun m =>
              [Effect.complete m, Effect.push (projectMessage m)]).flatten) ++
          [Effect.closeReceiver]) ++ [Effect.closeClient])
        (receiveSuccessResponse (getReq (some "2"))
          (([sampleMsg "m1", sampleMsg "m2", sampleMsg "m3"].take 2).map projectMessage)) ∧
    (([sampleMsg "m1", sampleMsg "m2", sampleMsg "m3"].take 2).map projectMessage).length ≤ 2 :=
  C4_receive_ack_exactly_returned envBoth
    [sampleMsg "m1", sampleMsg "m2", sampleMsg "m3"] (getReq (some "2"))
    "q1" 2 rfl rfl (by decide) (by decide)

/-- Claim C5 counterexample: a present non-numeric count query value such
as abc is truthy, so the code does not default to 1: the Number coercion
yields NaN and NaN is what the receive call gets, as the trace shows. -/
theorem C5_count_nan_cex :
    requestedCount (some "abc") = JsNumber.nan ∧
    JsNumber.nan ≠ JsNumber.num 1 ∧
    receiveMessages envBoth (reliableReceiveBroker [sampleMsg "m1"])
      (getReq (some "abc")) =
      .responded [Effect.constructClient, Effect.createReceiver "q1",
        Effect.receiveCall JsNumber.nan, Effect.closeClient]
        (createErrorResponse (getReq (some "abc"))
          "TypeError: maxMessageCount is not a number") :=
  ⟨by decide, by decide, by decide⟩

/-- Claim C5 amended: the requested count defaults to 1 exactly when the
count query parameter is absent or the empty string (the falsy cases);
any other value is passed through the Number coercion unchanged, so a
present non-numeric count is coerced to NaN rather than defaulted to 1. -/
theorem C5_count_default_semantics :
    requestedCount none = JsNumber.num 1 ∧
    requestedCount (some "") = JsNumber.num 1 ∧
    ∀ s : String, s ≠ "" → requestedCount (some s) = jsNumberOfString s := by
  refine ⟨rfl, rfl, ?_⟩
  intro s hs
  unfold requestedCount
  simp [hs]

theorem C5_count_default_semantics_witness :
    requestedCount (some "abc") = jsNumberOfString "abc" :=
  C5_count_default_semantics.2.2 "abc" (by decide)

/-- Claim C6: on both paths, a missing or empty queueName (connection
string present) yields the 400 bad-request response and a missing
connection string yields the 500 error response, each with an empty
effect trace: no broker client is constructed and no broker call is
attempted before the validation short-circuits. -/
theorem C6_validation_before_client :
    (∀ (env : Env) (broker : SendBroker) (req : HttpRequest),
      truthy env.SERVICEBUS_CONNECTION_STRING = true →
      truthy req.body.queueName = false →
      queueMessages env broker req = .responded []
        (createBadRequestResponse req "Missing \x27queueName\x27 from request body!")) ∧
    (∀ (env : Env) (broker : SendBroker) (req : HttpRequest),
      truthy env.SERVICEBUS_CONNECTION_STRING = false →
      queueMessages env broker req = .responded []
        (createErrorResponse req
          "\x27SERVICEBUS_CONNECTION_STRING\x27 is missing from environment variables!")) ∧
    (∀ (env : Env) (broker : ReceiveBroker) (req : HttpRequest),
      truthy env.SERVICE_BUS_CONNECTION_STRING = true →
      truthy req.query.queueName = false →
      receiveMessages env broker req = .responded []
        (createBadRequestResponse req "Missing \x27queueName\x27 from request query!")) ∧
    (∀ (env : Env) (broker : ReceiveBroker) (req : HttpRequest),
      truthy env.SERVICE_BUS_CONNECTION_STRING = false →
      receiveMessages env broker req = .responded []
        (createErrorResponse req
          "\x27SERVICE_BUS_CONNECTION_STRING\x27 is missing from environment variables!")) := by
  refine ⟨?_, ?_, ?_, ?_⟩
  · intro env broker req h1 h2
    simp [queueMessages, validateQueueRequest, h1, h2]
  · intro env broker req h1
    simp [queueMessages, validateQueueRequest, h1]
  · intro env broker req h1 h2
    simp [receiveMessages, validateReceiveRequest, h1, h2]
  · intro env broker req h1
    simp [receiveMessages, validateReceiveRequest, h1]

theorem C6_validation_before_client_witness :
    queueMessages envBoth (reliableBroker caps5) postReqNoQueueName = .responded []
      (createBadRequestResponse postReqNoQueueName
        "Missing \x27queueName\x27 from request body!") ∧
    queueMessages envNone (reliableBroker caps5) (postReq []) = .responded []
      (createErrorResponse (postReq [])
        "\x27SERVICEBUS_CONNECTION_STRING\x27 is missing from environment variables!") ∧
    receiveMessages envBoth (reliableReceiveBroker []) getReqNoQueueName = .responded []
      (createBadRequestResponse getReqNoQueueName
        "Missing \x27queueName\x27 from request query!") ∧
    receiveMessages envNone (reliableReceiveBroker []) (getReq none) = .responded []
      (createErrorResponse (getReq none)
        "\x27SERVICE_BUS_CONNECTION_STRING\x27 is missing from environment variables!") :=
  ⟨C6_validation_before_client.1 envBoth (reliableBroker caps5) postReqNoQueueName rfl rfl,
   C6_validation_before_client.2.1 envNone (reliableBroker caps5) (postReq []) rfl,
   C6_validation_before_client.2.2.1 envBoth (reliableReceiveBroker []) getReqNoQueueName rfl rfl,
   C6_validation_before_client.2.2.2 envNone (reliableReceiveBroker []) (getReq none) rfl⟩

/-- Claim C7 counterexample: for method PUT the 405 message the code
builds is "Method \x27PUT not allowed!" with no closing quote, not the
claimed "Method \x27PUT not allowed!\x27": the template literal in
index.ts opens the quote before the method but never closes it. -/
theorem C7_put_message_cex :
    httpTrigger envBoth (reliableBroker caps5) (reliableReceiveBroker []) putReq =
      .responded [] (methodNotAllowedResponse putReq) ∧
    (methodNotAllowedResponse putReq).body.message =
      some "Method \x27PUT not allowed!" ∧
    (methodNotAllowedResponse putReq).body.message ≠
      some "Method \x27PUT not allowed!\x27" :=
  ⟨rfl, rfl, by decide⟩

/-- Claim C7 amended: every method other than GET and POST yields a 405
response whose body message is "Method \x27" ++ method ++ " not allowed!"
(the template lacks the closing quote after the method), together with an
echo of the request method, headers and body. -/
theorem C7_method_not_allowed (env : Env) (sendB : SendBroker)
    (recvB : ReceiveBroker) (req : HttpRequest)
    (hg : req.method ≠ "GET") (hp : req.method ≠ "POST") :
    httpTrigger env sendB recvB req = .responded [] (methodNotAllowedResponse req) ∧
    (methodNotAllowedResponse req).status = 405 ∧
    (methodNotAllowedResponse req).body.message =
      some ("Method \x27" ++ req.method ++ " not allowed!") ∧
    (methodNotAllowedResponse req).body.request = echoBodyHeadersMethod req := by
  refine ⟨?_, rfl, rfl, rfl⟩
  unfold httpTrigger
  rw [if_neg hg, if_neg hp]

theorem C7_method_not_allowed_witness :
    httpTrigger envBoth (reliableBroker caps5) (reliableReceiveBroker []) putReq =
      .responded [] (methodNotAllowedResponse putReq) ∧
    (methodNotAllowedResponse putReq).status = 405 ∧
    (methodNotAllowedResponse putReq).body.message =
      some ("Method \x27" ++ "PUT" ++ " not allowed!") ∧
    (methodNotAllowedResponse putReq).body.request = echoBodyHeadersMethod putReq :=
  C7_method_not_allowed envBoth (reliableBroker caps5) (reliableReceiveBroker [])
    putReq (by decide) (by decide)

/-- Claim C10: in both validators the connection-configuration check runs
before the queueName check, so a request missing both gets the 500
configuration error, never a 400. -/
theorem C10_conn_checked_first :
    (∀ (env : Env) (broker : SendBroker) (req : HttpRequest),
      truthy env.SERVICEBUS_CONNECTION_STRING = false →
      truthy req.body.queueName = false →
      ∃ resp, queueMessages env broker req = .responded [] resp ∧
        resp.status = 500 ∧ resp.status ≠ 400) ∧
    (∀ (env : Env) (broker : ReceiveBroker) (req : HttpRequest),
      truthy env.SERVICE_BUS_CONNECTION_STRING = false →
      truthy req.query.queueName = false →
      ∃ resp, receiveMessages env broker req = .responded [] resp ∧
        resp.status = 500 ∧ resp.status ≠ 400) := by
  constructor
  · intro env broker req h1 _h2
    refine ⟨createErrorResponse req
      "\x27SERVICEBUS_CONNECTION_STRING\x27 is missing from environment variables!",
      ?_, rfl, by simp [createErrorResponse]⟩
    simp [queueMessages, validateQueueRequest, h1]
  · intro env broker req h1 _h2
    refine ⟨createErrorResponse req
      "\x27SERVICE_BUS_CONNECTION_STRING\x27 is missing from environment variables!",
      ?_, rfl, by simp [createErrorResponse]⟩
    simp [receiveMessages, validateReceiveRequest, h1]

theorem C10_conn_checked_first_witness :
    (∃ resp, queueMessages envNone (reliableBroker caps5) postReqNoQueueName =
        .responded [] resp ∧ resp.status = 500 ∧ resp.status ≠ 400) ∧
    (∃ resp, receiveMessages envNone (reliableReceiveBroker []) getReqNoQueueName =
        .responded [] resp ∧ resp.status = 500 ∧ resp.status ≠ 400) :=
  ⟨C10_conn_checked_first.1 envNone (reliableBroker caps5) postReqNoQueueName rfl rfl,
   C10_conn_checked_first.2 envNone (reliableReceiveBroker []) getReqNoQueueName rfl rfl⟩

/-- Claim C8 counterexample: a run where a sendMessages call throws exits
through catch and finally with the client closed but the sender never
closed, contradicting the claim that the sender handle is closed on every
exit path. -/
theorem C8_sender_not_closed_cex :
    queueMessages envBoth failSendBroker (postReq []) =
      .responded [Effect.constructClient, Effect.createSender "q1",
        Effect.sendBatch { maxSizeInBytes := 5, messages := [] },
        Effect.closeClient]
        (createErrorResponse (postReq []) "Error: socket closed") ∧
    Effect.closeSender ∉ [Effect.constructClient, Effect.createSender "q1",
        Effect.sendBatch { maxSizeInBytes := 5, messages := [] },
        Effect.closeClient] ∧
    Effect.closeClient ∈ [Effect.constructClient, Effect.createSender "q1",
        Effect.sendBatch { maxSizeInBytes := 5, messages := [] },
        Effect.closeClient] :=
  ⟨rfl, by decide, by decide⟩

/-- Claim C8 amended: on every responding exit path the client close in
the finally is the last broker event unless validation short-circuited
before any handle was opened; on the success path (200) the sender
(resp. receiver) is closed immediately before the client, in that order.
On error exits from the try block only the client is closed: the
sender/receiver handle is not (see the counterexample). -/
theorem C8_close_discipline :
    (∀ (env : Env) (broker : SendBroker) (req : HttpRequest)
        (tr : List Effect) (resp : Response),
      queueMessages env broker req = .responded tr resp →
      tr = [] ∨ ∃ t, tr = t ++ [Effect.closeClient]) ∧
    (∀ (env : Env) (broker : ReceiveBroker) (req : HttpRequest)
        (tr : List Effect) (resp : Response),
      receiveMessages env broker req = .responded tr resp →
      tr = [] ∨ ∃ t, tr = t ++ [Effect.closeClient]) ∧
    (∀ (env : Env) (broker : SendBroker) (req : HttpRequest)
        (tr : List Effect) (resp : Response),
      queueMessages env broker req = .responded tr resp →
      resp.status = 200 →
      ∃ t, tr = t ++ [Effect.closeSender, Effect.closeClient]) ∧
    (∀ (env : Env) (broker : ReceiveBroker) (req : HttpRequest)
        (tr : List Effect) (resp : Response),
      receiveMessages env broker req = .responded tr resp →
      resp.status = 200 →
      ∃ t, tr = t ++ [Effect.closeReceiver, Effect.closeClient]) := by
  refine ⟨?_, ?_, ?_, ?_⟩
  · intro env broker req tr resp h
    unfold queueMessages at h
    cases hv : validateQueueRequest env req with
    | some r =>
      simp only [hv, Outcome.responded.injEq] at h
      exact Or.inl h.1.symm
    | none =>
      simp only [hv] at h
      cases hc : broker.constructResult with
      | error e0 => simp only [hc] at h; simp at h
      | ok u =>
        simp only [hc] at h
        cases hs : broker.createSenderResult with
        | error e0 => simp only [hs] at h; simp at h
        | ok u2 =>
          simp only [hs] at h
          rcases hT : queueTryBlock broker req (req.body.queueName.getD "")
              req.body.messages.asArr with ⟨trB, res⟩
          rw [hT] at h
          cases hcc : broker.clientCloseResult with
          | error e0 => simp only [hcc] at h; simp at h
          | ok u3 =>
            simp only [hcc, Outcome.responded.injEq] at h
            exact Or.inr ⟨Effect.constructClient ::
              Effect.createSender (req.body.queueName.getD "") :: trB, h.1.symm⟩
  · intro env broker req tr resp h
    unfold receiveMessages at h
    cases hv : validateReceiveRequest env req with
    | some r =>
      simp only [hv, Outcome.responded.injEq] at h
      exact Or.inl h.1.symm
    | none =>
      simp only [hv] at h
      cases hc : broker.constructResult with
      | error e0 => simp only [hc] at h; simp at h
      | ok u =>
        simp only [hc] at h
        cases hs : broker.createReceiverResult with
        | error e0 => simp only [hs] at h; simp at h
        | ok u2 =>
          simp only [hs] at h
          rcases hT : receiveTryBlock broker req with ⟨trB, res⟩
          rw [hT] at h
          cases hcc : broker.clientCloseResult with
          | error e0 => simp only [hcc] at h; simp at h
          | ok u3 =>
            simp only [hcc, Outcome.responded.injEq] at h
            exact Or.inr ⟨Effect.constructClient ::
              Effect.createReceiver (req.query.queueName.getD "") :: trB, h.1.symm⟩
  · intro env broker req tr resp h h200
    unfold queueMessages at h
    cases hv : validateQueueRequest env req with
    | some r =>
      simp only [hv, Outcome.responded.injEq] at h
      rw [← h.2] at h200
      rcases validateQueueRequest_some_status hv with h4 | h4 <;> omega
    | none =>
      simp only [hv] at h
      cases hc : broker.constructResult with
      | error e0 => simp only [hc] at h; simp at h
      | ok u =>
        simp only [hc] at h
        cases hs : broker.createSenderResult with
        | error e0 => simp only [hs] at h; simp at h
        | ok u2 =>
          simp only [hs] at h
          rcases hT : queueTryBlock broker req (req.body.queueName.getD "")
              req.body.messages.asArr with ⟨trB, res⟩
          rw [hT] at h
          cases hcc : broker.clientCloseResult with
          | error e0 => simp only [hcc] at h; simp at h
          | ok u3 =>
            cases res with
            | error e =>
              simp only [hcc, Outcome.responded.injEq] at h
              rw [← h.2] at h200
              simp [createErrorResponse] at h200
            | ok r =>
              simp only [hcc, Outcome.responded.injEq] at h
              obtain ⟨hrsp, t, fb, htrB⟩ := queueTryBlock_ok hT
              refine ⟨Effect.constructClient ::
                Effect.createSender (req.body.queueName.getD "") ::
                (t ++ [Effect.sendBatch fb]), ?_⟩
              rw [← h.1, htrB]
              simp
  · intro env broker req tr resp h h200
    unfold receiveMessages at h
    cases hv : validateReceiveRequest env req with
    | some r =>
      simp only [hv, Outcome.responded.injEq] at h
      rw [← h.2] at h200
      rcases validateReceiveRequest_some_status hv with h4 | h4 <;> omega
    | none =>
      simp only [hv] at h
      cases hc : broker.constructResult with
      | error e0 => simp only [hc] at h; simp at h
      | ok u =>
        simp only [hc] at h
        cases hs : broker.createReceiverResult with
        | error e0 => simp only [hs] at h; simp at h
        | ok u2 =>
          simp only [hs] at h
          rcases hT : receiveTryBlock broker req with ⟨trB, res⟩
          rw [hT] at h
          cases hcc : broker.clientCloseResult with
          | error e0 => simp only [hcc] at h; simp at h
          | ok u3 =>
            cases res with
            | error e =>
              simp only [hcc, Outcome.responded.injEq] at h
              rw [← h.2] at h200
              simp [createErrorResponse] at h200
            | ok r =>
              simp only [hcc, Outcome.responded.injEq] at h
              obtain ⟨⟨msgs, hrsp⟩, t, htrB⟩ := receiveTryBlock_ok hT
              refine ⟨Effect.constructClient ::
                Effect.createReceiver (req.query.queueName.getD "") :: t, ?_⟩
              rw [← h.1, htrB]
              simp

theorem C8_close_discipline_witness :
    ∃ t, [Effect.constructClient, Effect.createSender "q1",
        Effect.sendBatch { maxSizeInBytes := 5, messages := [msgA] },
        Effect.closeSender, Effect.closeClient] =
      t ++ [Effect.closeSender, Effect.closeClient] :=
  C8_close_discipline.2.2.1 envBoth (reliableBroker caps5) (postReq [msgA])
    [Effect.constructClient, Effect.createSender "q1",
      Effect.sendBatch { maxSizeInBytes := 5, messages := [msgA] },
      Effect.closeSender, Effect.closeClient]
    (queueSuccessResponse (postReq [msgA]) "q1" [msgA]) rfl rfl

/-- Claim C9 counterexample: an error thrown by broker client construction
(which the source performs before the try statement) propagates to the
host uncaught, with no ResponseEnvelope produced, contradicting the claim
that every error is caught and converted to a 500 envelope. -/
theorem C9_construct_error_uncaught_cex :
    queueMessages envBoth failConstructBroker (postReq [msgA]) =
      .uncaught [] "Error: bad connection string" :=
  rfl

/-- Claim C9 amended: errors thrown inside the try block (create batch,
send, receive, complete, sender/receiver close) are caught and converted
to the 500 envelope carrying the error string, so a responding run that
passed validation either returns 200 or createErrorResponse of the thrown
string; but an uncaught outcome arises exactly from client construction,
sender/receiver creation (both before the try), or the client close in
the finally: those errors propagate to the host uncaught. -/
theorem C9_catch_boundary :
    (∀ (env : Env) (broker : SendBroker) (req : HttpRequest)
        (tr : List Effect) (e : String),
      queueMessages env broker req = .uncaught tr e →
      broker.constructResult = .error e ∨ broker.createSenderResult = .error e ∨
      broker.clientCloseResult = .error e) ∧
    (∀ (env : Env) (broker : ReceiveBroker) (req : HttpRequest)
        (tr : List Effect) (e : String),
      receiveMessages env broker req = .uncaught tr e →
      broker.constructResult = .error e ∨ broker.createReceiverResult = .error e ∨
      broker.clientCloseResult = .error e) ∧
    (∀ (env : Env) (broker : SendBroker) (req : HttpRequest)
        (tr : List Effect) (resp : Response),
      queueMessages env broker req = .responded tr resp →
      validateQueueRequest env req = none →
      resp.status = 200 ∨ ∃ e, resp = createErrorResponse req e) ∧
    (∀ (env : Env) (broker : ReceiveBroker) (req : HttpRequest)
        (tr : List Effect) (resp : Response),
      receiveMessages env broker req = .responded tr resp →
      validateReceiveRequest env req = none →
      resp.status = 200 ∨ ∃ e, resp = createErrorResponse req e) := by
  refine ⟨?_, ?_, ?_, ?_⟩
  · intro env broker req tr e h
    unfold queueMessages at h
    cases hv : validateQueueRequest env req with
    | some r => simp only [hv] at h; simp at h
    | none =>
      simp only [hv] at h
      cases hc : broker.constructResult with
      | error e0 =>
        simp only [hc, Outcome.uncaught.injEq] at h
        exact Or.inl (by rw [← h.2]; try exact hc)
      | ok u =>
        simp only [hc] at h
        cases hs : broker.createSenderResult with
        | error e0 =>
          simp only [hs, Outcome.uncaught.injEq] at h
          exact Or.inr (Or.inl (by rw [← h.2]; try exact hs))
        | ok u2 =>
          simp only [hs] at h
          rcases hT : queueTryBlock broker req (req.body.queueName.getD "")
              req.body.messages.asArr with ⟨trB, res⟩
          rw [hT] at h
          cases hcc : broker.clientCloseResult with
          | error e0 =>
            simp only [hcc, Outcome.uncaught.injEq] at h
            exact Or.inr (Or.inr (by rw [← h.2]; try exact hcc))
          | ok u3 => simp only [hcc] at h; simp at h
  · intro env broker req tr e h
    unfold receiveMessages at h
    cases hv : validateReceiveRequest env req with
    | some r => simp only [hv] at h; simp at h
    | none =>
      simp only [hv] at h
      cases hc : broker.constructResult with
      | error e0 =>
        simp only [hc, Outcome.uncaught.injEq] at h
        exact Or.inl (by rw [← h.2]; try exact hc)
      | ok u =>
        simp only [hc] at h
        cases hs : broker.createReceiverResult with
        | error e0 =>
          simp only [hs, Outcome.uncaught.injEq] at h
          exact Or.inr (Or.inl (by rw [← h.2]; try exact hs))
        | ok u2 =>
          simp only [hs] at h
          rcases hT : receiveTryBlock broker req with ⟨trB, res⟩
          rw [hT] at h
          cases hcc : broker.clientCloseResult with
          | error e0 =>
            simp only [hcc, Outcome.uncaught.injEq] at h
            exact Or.inr (Or.inr (by rw [← h.2]; try exact hcc))
          | ok u3 => simp only [hcc] at h; simp at h
  · intro env broker req tr resp h hval
    unfold queueMessages at h
    simp only [hval] at h
    cases hc : broker.constructResult with
    | error e0 => simp only [hc] at h; simp at h
    | ok u =>
      simp only [hc] at h
      cases hs : broker.createSenderResult with
      | error e0 => simp only [hs] at h; simp at h
      | ok u2 =>
        simp only [hs] at h
        rcases hT : queueTryBlock broker req (req.body.queueName.getD "")
            req.body.messages.asArr with ⟨trB, res⟩
        rw [hT] at h
        cases hcc : broker.clientCloseResult with
        | error e0 => simp only [hcc] at h; simp at h
        | ok u3 =>
          cases res with
          | ok r =>
            simp only [hcc, Outcome.responded.injEq] at h
            obtain ⟨hrsp, _⟩ := queueTryBlock_ok hT
            left
            rw [← h.2, hrsp]
            rfl
          | error e =>
            simp only [hcc, Outcome.responded.injEq] at h
            exact Or.inr ⟨e, h.2.symm⟩
  · intro env broker req tr resp h hval
    unfold receiveMessages at h
    simp only [hval] at h
    cases hc : broker.constructResult with
    | error e0 => simp only [hc] at h; simp at h
    | ok u =>
      simp only [hc] at h
      cases hs : broker.createReceiverResult with
      | error e0 => simp only [hs] at h; simp at h
      | ok u2 =>
        simp only [hs] at h
        rcases hT : receiveTryBlock broker req with ⟨trB, res⟩
        rw [hT] at h
        cases hcc : broker.clientCloseResult with
        | error e0 => simp only [hcc] at h; simp at h
        | ok u3 =>
          cases res with
          | ok r =>
            simp only [hcc, Outcome.responded.injEq] at h
            obtain ⟨⟨msgs, hrsp⟩, _⟩ := receiveTryBlock_ok hT
            left
            rw [← h.2, hrsp]
            rfl
          | error e =>
            simp only [hcc, Outcome.responded.injEq] at h
            exact Or.inr ⟨e, h.2.symm⟩

theorem C9_catch_boundary_witness :
    failConstructBroker.constructResult = .error "Error: bad connection string" ∨
    failConstructBroker.createSenderResult = .error "Error: bad connection string" ∨
    failConstructBroker.clientCloseResult = .error "Error: bad connection string" :=
  C9_catch_boundary.1 envBoth failConstructBroker (postReq [msgA]) []
    "Error: bad connection string" rfl

end SBProxy
